import Mathlib

/-!
Formal model of the string-similarity scorer and of the search / fallback /
deduplication logic of the scrape repository (src/index.ts,
src/unnamed/part_000, src/unnamed/part_001).

Conventions of the embedding:
* JavaScript strings are modelled as `List Char`; `String.prototype.toLowerCase`
  is modelled per character by `Char.toLower`.
* JavaScript numbers appearing in this code are modelled as rationals `ℚ`;
  the only non-finite value the scorer can produce is the `NaN` arising from
  the division `0 / 0` on two empty strings, which is modelled as `none` in
  an `Option ℚ` result (every comparison `NaN >= t` is false, which the
  helper `simGE` reproduces).
* Code that can throw is modelled as a function into `Except`, and the
  surrounding `try`/`catch` block as a runner that maps every `error` to the
  empty result list.
-/

namespace Scrape

/-- Model of JavaScript `s.toLowerCase()`, applied per character. -/
def lowerStr (s : List Char) : List Char := s.map Char.toLower

/-- Whether `needle` occurs at the very start of `hay`. -/
def startsWithList : List Char → List Char → Bool
  | _, [] => true
  | [], _ :: _ => false
  | c :: cs, d :: ds => c == d && startsWithList cs ds

/-- Whether `needle` occurs contiguously anywhere in `hay`
(model of JavaScript `hay.includes(needle)`). -/
def containsList : List Char → List Char → Bool
  | [], needle => needle.isEmpty
  | c :: rest, needle => startsWithList (c :: rest) needle || containsList rest needle

/-- Model of the JavaScript case-insensitive substring test
`hay.toLowerCase().includes(needle.toLowerCase())` used on descriptions. -/
def containsKeyword (hay needle : List Char) : Bool :=
  containsList (lowerStr hay) (lowerStr needle)

/-- Textbook Levenshtein edit distance (insertion, deletion and substitution
each of cost 1), recursing on the heads of the two lists.  This is the
specification-side definition; the code's dynamic-programming matrix is
`levMatrixF` below, and the two are proved to agree. -/
def lev : List Char → List Char → ℕ
  | [], t => t.length
  | _ :: s, [] => s.length + 1
  | x :: s, y :: t =>
      min (lev s (y :: t) + 1)
        (min (lev (x :: s) t + 1) (lev s t + (if x = y then 0 else 1)))
termination_by s t => (s, t)

/-- The dynamic-programming matrix entry `matrix[i][j]` built by
`calculateSimilarity` (src/index.ts lines 37-53): `matrix[i][0] = i`,
`matrix[0][j] = j`, and
`matrix[i][j] = min(matrix[i-1][j] + 1, matrix[i][j-1] + 1, matrix[i-1][j-1] + cost)`
with `cost = 0` when `str1[i-1] === str2[j-1]` and `1` otherwise.
An explicit fuel argument makes the recurrence structurally recursive so the
kernel can evaluate it; any fuel exceeding `i + j` computes the entry. -/
def levMatrixF (s t : List Char) : ℕ → ℕ → ℕ → ℕ
  | 0, _, _ => 0
  | _ + 1, 0, j => j
  | _ + 1, i + 1, 0 => i + 1
  | f + 1, i + 1, j + 1 =>
      min (levMatrixF s t f i (j + 1) + 1)
        (min (levMatrixF s t f (i + 1) j + 1)
          (levMatrixF s t f i j + (if s[i]? = t[j]? then 0 else 1)))

/-- Model of `calculateSimilarity` (src/index.ts lines 29-61, and the
identical copies in src/unnamed/part_000 lines 28-62 and src/unnamed/part_001
lines 28-62): lower-case both strings, fill the Levenshtein matrix, read off
`distance = matrix[len1][len2]`, and return `1 - distance / max(len1, len2)`.
When both strings are empty the division is `0 / 0`, which in JavaScript
yields `NaN`; that outcome is modelled as `none`. -/
def calculateSimilarity (str1 str2 : List Char) : Option ℚ :=
  let s1 := lowerStr str1
  let s2 := lowerStr str2
  let len1 := s1.length
  let len2 := s2.length
  let distance := levMatrixF s1 s2 (len1 + len2 + 1) len1 len2
  let maxLen := max len1 len2
  if maxLen = 0 then none
  else some (1 - (distance : ℚ) / (maxLen : ℚ))

/-- JavaScript comparison `similarity >= threshold`: false when the similarity
is `NaN` (both inputs empty), otherwise the rational comparison. -/
def simGE : Option ℚ → ℚ → Bool
  | none, _ => false
  | some v, th => decide (th ≤ v)

/-- The first concrete string of the classic edit-distance example. -/
def kittenChars : List Char := ['k', 'i', 't', 't', 'e', 'n']

/-- The second concrete string of the classic edit-distance example. -/
def sittingChars : List Char := ['s', 'i', 't', 't', 'i', 'n', 'g']

/-- A Candidate Account as returned to callers: `{ name, description?, url }`. -/
structure Account where
  name : List Char
  description : Option (List Char)
  url : List Char
deriving DecidableEq

/-- JavaScript truthiness of an optional string field (`undefined` and the
empty string are falsy). -/
def descTruthy : Option (List Char) → Bool
  | none => false
  | some d => !d.isEmpty

/-- The description-substring branch applied to an optional description. -/
def descContains (kw : List Char) : Option (List Char) → Bool
  | none => false
  | some d => containsKeyword d kw

/-- The inclusion rule as the specification states it (spec sections 4.1 and
4.2 step 2): include the candidate iff the similarity of its name (or, where
available, of its handle/username) against the keyword is at least the
request's threshold, or its description contains the keyword as a
case-insensitive substring.  Modelled from the spec wording for comparison
with the per-platform tests below. -/
def specInclusionRule (kw : List Char) (th : ℚ) (name : List Char)
    (handle : Option (List Char)) (desc : Option (List Char)) : Bool :=
  simGE (calculateSimilarity name kw) th ||
    (match handle with
     | some h => simGE (calculateSimilarity h kw) th
     | none => false) ||
    descContains kw desc

/-- A user object of the Twitter users/search API response. -/
structure TwitterUser where
  name : List Char
  username : List Char
  description : Option (List Char)
deriving DecidableEq

/-- The `https://twitter.com/[username]` profile link. -/
def twitterUrl (username : List Char) : List Char :=
  "https://twitter.com/".data ++ username

/-- Per-result inclusion test of `searchTwitterAccountsViaAPI`
(src/index.ts lines 103-119): fuzzy match on name or username, else the
description-substring branch guarded by the truthiness of `description`. -/
def twitterAPIIncludes (kw : List Char) (th : ℚ) (u : TwitterUser) : Bool :=
  simGE (calculateSimilarity u.name kw) th ||
    simGE (calculateSimilarity u.username kw) th ||
    (descTruthy u.description && descContains kw u.description)

/-- Body of `searchTwitterAccountsViaAPI` (src/index.ts lines 74-123): throws
on a non-ok HTTP status, otherwise filters the response users by the
per-result test.  The transport layer is abstracted as the pair
`(ok, users)`. -/
def searchTwitterAccountsViaAPIBody (kw : List Char) (th : ℚ) (ok : Bool)
    (users : List TwitterUser) : Except (List Char) (List Account) :=
  if ok then
    Except.ok ((users.filter (twitterAPIIncludes kw th)).map
      (fun u => ⟨u.name, u.description, twitterUrl u.username⟩))
  else Except.error "API request failed".data

/-- `searchTwitterAccountsViaAPI` with its catch-all handler
(src/index.ts lines 124-127): every thrown error becomes the empty list. -/
def searchTwitterAccountsViaAPI (kw : List Char) (th : ℚ) (ok : Bool)
    (users : List TwitterUser) : List Account :=
  match searchTwitterAccountsViaAPIBody kw th ok users with
  | Except.ok r => r
  | Except.error _ => []

/-- Inclusion test of the Nitter scraping fallback `scrapeTwitterResults`
(src/index.ts lines 169-184); it receives the caller's threshold. -/
def scrapeTwitterIncludes (kw : List Char) (th : ℚ)
    (name username desc : List Char) : Bool :=
  simGE (calculateSimilarity name kw) th ||
    simGE (calculateSimilarity username kw) th ||
    (!desc.isEmpty && containsKeyword desc kw)

/-- Inclusion test of the direct-Twitter scraping fallback
`scrapeDirectTwitterResults` (src/index.ts lines 244-256); it receives the
caller's threshold and applies the substring branch to the (possibly empty)
defaulted description with no truthiness guard. -/
def scrapeDirectTwitterIncludes (kw : List Char) (th : ℚ)
    (name username desc : List Char) : Bool :=
  simGE (calculateSimilarity name kw) th ||
    simGE (calculateSimilarity username kw) th ||
    containsKeyword desc kw

/-- Inclusion test of the YouTube scraping fallback `scrapeYouTubeResults`
(src/unnamed/part_000 lines 231-242): the threshold is the literal `0.7`,
not a parameter — the function does not receive the request's
`fuzzyThreshold` at all. -/
def scrapeYouTubeIncludes (kw : List Char) (name desc : List Char) : Bool :=
  simGE (calculateSimilarity name kw) (7 / 10) || containsKeyword desc kw

/-- Inclusion test of the Facebook scraping fallback `scrapeFacebookResults`
(src/unnamed/part_001 lines 182-189): the threshold is the literal `0.7` and
there is no description branch. -/
def scrapeFacebookIncludes (kw : List Char) (name : List Char) : Bool :=
  simGE (calculateSimilarity name kw) (7 / 10)

/-- A snippet of a YouTube search API result item. -/
structure YTSnippet where
  title : List Char
  description : Option (List Char)
  channelId : List Char
deriving DecidableEq

/-- The detailed channel data fetched per item (src/unnamed/part_000 lines
123-165), with the code's `|| ""` defaults already applied. -/
structure YTDetail where
  chDesc : List Char
  chAbout : List Char
deriving DecidableEq

/-- One YouTube search result item together with the outcome of its
channel-details fetch (`none`: the fetch threw, was non-ok, or had no
items). -/
structure YTItem where
  snippet : YTSnippet
  detail : Option YTDetail
deriving DecidableEq

/-- The `https://www.youtube.com/channel/[id]` link. -/
def ytChannelUrl (cid : List Char) : List Char :=
  "https://www.youtube.com/channel/".data ++ cid

/-- Per-result primary inclusion test of `searchYouTubeChannels`
(src/unnamed/part_000 lines 100-121). -/
def ytAPIIncludes (kw : List Char) (th : ℚ) (sn : YTSnippet) : Bool :=
  simGE (calculateSimilarity sn.title kw) th ||
    (descTruthy sn.description && descContains kw sn.description)

/-- One iteration of the result loop of `searchYouTubeChannels`
(src/unnamed/part_000 lines 93-169): the primary test may push the candidate;
then, if the channel-details fetch succeeded and the detailed description or
about text contains the keyword and the url is not yet present, a second
entry is pushed with `channelDescription || channelAbout` as description. -/
def ytStep (kw : List Char) (th : ℚ) (acc : List Account) (it : YTItem) :
    List Account :=
  let url := ytChannelUrl it.snippet.channelId
  let acc1 :=
    if ytAPIIncludes kw th it.snippet then
      acc ++ [⟨it.snippet.title, it.snippet.description, url⟩]
    else acc
  match it.detail with
  | none => acc1
  | some d =>
      if (containsKeyword d.chDesc kw || containsKeyword d.chAbout kw) &&
          !(acc1.any (fun r => r.url == url)) then
        acc1 ++ [⟨it.snippet.title,
          some (if d.chDesc.isEmpty then d.chAbout else d.chDesc), url⟩]
      else acc1

/-- Body of `searchYouTubeChannels` (src/unnamed/part_000 lines 77-171):
throws on a non-ok HTTP status, otherwise folds the result loop over the
response items. -/
def searchYouTubeChannelsBody (kw : List Char) (th : ℚ) (ok : Bool)
    (items : List YTItem) : Except (List Char) (List Account) :=
  if ok then Except.ok (items.foldl (ytStep kw th) [])
  else Except.error "API request failed".data

/-- `searchYouTubeChannels` with its catch-all handler
(src/unnamed/part_000 lines 172-175). -/
def searchYouTubeChannels (kw : List Char) (th : ℚ) (ok : Bool)
    (items : List YTItem) : List Account :=
  match searchYouTubeChannelsBody kw th ok items with
  | Except.ok r => r
  | Except.error _ => []

/-- A page object of the Facebook Graph page-search response. -/
structure FBPage where
  name : List Char
  about : Option (List Char)
  link : List Char
deriving DecidableEq

/-- A user object of the Facebook Graph user-search response. -/
structure FBUser where
  name : List Char
  link : List Char
deriving DecidableEq

/-- Per-page inclusion test of `searchFacebookAccounts`
(src/unnamed/part_001 lines 99-108): fuzzy name match only — the `about`
text plays no part. -/
def fbPageIncludes (kw : List Char) (th : ℚ) (p : FBPage) : Bool :=
  simGE (calculateSimilarity p.name kw) th

/-- Per-user inclusion test of `searchFacebookAccounts`
(src/unnamed/part_001 lines 127-135): fuzzy name match only. -/
def fbUserIncludes (kw : List Char) (th : ℚ) (u : FBUser) : Bool :=
  simGE (calculateSimilarity u.name kw) th

/-- Body of `searchFacebookAccounts` (src/unnamed/part_001 lines 77-139):
throws when the page search has a non-ok status; a non-ok user search is only
logged and the user loop skipped.  Matching pages and then matching users are
pushed in order, with no deduplication of any kind. -/
def searchFacebookAccountsBody (kw : List Char) (th : ℚ) (pagesOk : Bool)
    (pages : List FBPage) (usersOk : Bool) (users : List FBUser) :
    Except (List Char) (List Account) :=
  if pagesOk then
    Except.ok
      ((pages.filter (fbPageIncludes kw th)).map
          (fun p => ⟨p.name, p.about, p.link⟩) ++
        (if usersOk then
          (users.filter (fbUserIncludes kw th)).map (fun u => ⟨u.name, none, u.link⟩)
        else []))
  else Except.error "API request failed".data

/-- `searchFacebookAccounts` with its catch-all handler
(src/unnamed/part_001 lines 140-143). -/
def searchFacebookAccounts (kw : List Char) (th : ℚ) (pagesOk : Bool)
    (pages : List FBPage) (usersOk : Bool) (users : List FBUser) :
    List Account :=
  match searchFacebookAccountsBody kw th pagesOk pages usersOk users with
  | Except.ok r => r
  | Except.error _ => []

/-- The unified Twitter search `searchTwitterAccounts`
(src/index.ts lines 268-293), with each source's (exception-free) outcome
abstracted as a list: when the API is configured and returns a non-empty
list it is returned unchanged; otherwise the Nitter scrape, and then the
direct scrape, are tried in order. -/
def searchTwitterAccountsUnified (useAPI : Bool)
    (api nitter direct : List Account) : List Account :=
  if useAPI && !api.isEmpty then api
  else if !nitter.isEmpty then nitter
  else direct

/-- The fallback step of the Facebook `/api/search` handler
(src/unnamed/part_001 lines 217-223): scrape exactly when the API path
produced zero results. -/
def fbSearchHandlerResults (api scrape : List Account) : List Account :=
  if api.isEmpty then scrape else api

/-- The fallback step of the YouTube `/api/search` handler
(src/unnamed/part_000 lines 277-283): scrape exactly when the API path
produced zero results. -/
def ytSearchHandlerResults (api scrape : List Account) : List Account :=
  if api.isEmpty then scrape else api

/-- The merge of the YouTube `/api/extended-search` handler
(src/unnamed/part_000 lines 348-355): start from the channel results and
push each video-derived channel whose url is not already present. -/
def mergeByUrl (channelResults videoChannels : List Account) : List Account :=
  videoChannels.foldl
    (fun acc ch => if ch.url ∈ acc.map Account.url then acc else acc ++ [ch])
    channelResults

/-- The options a `/api/search` request body supplies (all optional except
the keyword, whose presence the handlers check first). -/
structure SearchBody where
  keyword : List Char
  limit : Option ℚ
  throttleMs : Option ℚ
  fuzzyThreshold : Option ℚ
deriving DecidableEq

/-- The CrawlOptions record the handlers build. -/
structure CrawlOptions where
  keyword : List Char
  limit : ℚ
  throttleMs : ℚ
  fuzzyThreshold : ℚ
deriving DecidableEq

/-- JavaScript `x || d` on an optional numeric field: the default replaces
both an absent field and a present falsy (zero) value. -/
def jsOrNum : Option ℚ → ℚ → ℚ
  | none, d => d
  | some v, d => if v = 0 then d else v

/-- Options construction of the Twitter `/api/search` handler
(src/index.ts lines 305-310). -/
def twitterSearchOptions (b : SearchBody) : CrawlOptions :=
  ⟨b.keyword, jsOrNum b.limit 100, jsOrNum b.throttleMs 2000,
    jsOrNum b.fuzzyThreshold (7 / 10)⟩

/-- Options construction of the YouTube `/api/search` handler
(src/unnamed/part_000 lines 269-274). -/
def youtubeSearchOptions (b : SearchBody) : CrawlOptions :=
  ⟨b.keyword, jsOrNum b.limit 50, jsOrNum b.throttleMs 1000,
    jsOrNum b.fuzzyThreshold (7 / 10)⟩

/-- Options construction of the Facebook `/api/search` handler
(src/unnamed/part_001 lines 209-214). -/
def facebookSearchOptions (b : SearchBody) : CrawlOptions :=
  ⟨b.keyword, jsOrNum b.limit 25, jsOrNum b.throttleMs 1000,
    jsOrNum b.fuzzyThreshold (7 / 10)⟩

theorem lev_nil_left (t : List Char) : lev [] t = t.length := by
  simp [lev]

theorem lev_cons_nil (x : Char) (s : List Char) : lev (x :: s) [] = s.length + 1 := by
  simp [lev]

theorem lev_cons_cons (x y : Char) (s t : List Char) :
    lev (x :: s) (y :: t) =
      min (lev s (y :: t) + 1)
        (min (lev (x :: s) t + 1) (lev s t + (if x = y then 0 else 1))) := by
  rw [lev]

theorem lev_nil_right (s : List Char) : lev s [] = s.length := by
  cases s with
  | nil => rw [lev_nil_left]
  | cons x s => rw [lev_cons_nil]; rfl

theorem lev_comm (s : List Char) : ∀ t, lev s t = lev t s := by
  induction s with
  | nil => intro t; rw [lev_nil_left, lev_nil_right]
  | cons x s ihs =>
    intro t
    induction t with
    | nil => rw [lev_nil_right, lev_nil_left]
    | cons y t iht =>
      rw [lev_cons_cons, lev_cons_cons, ihs (y :: t), iht, ihs t]
      have hxy : (if x = y then 0 else 1) = (if y = x then 0 else 1) := by
        by_cases h : x = y
        · simp [h]
        · have h' : ¬ y = x := fun hh => h hh.symm
          simp [h, h']
      rw [hxy]
      omega

theorem lev_eq_zero_iff (s : List Char) : ∀ t, lev s t = 0 ↔ s = t := by
  induction s with
  | nil =>
    intro t
    rw [lev_nil_left]
    cases t <;> simp
  | cons x s ihs =>
    intro t
    cases t with
    | nil => rw [lev_cons_nil]; simp
    | cons y t =>
      rw [lev_cons_cons]
      constructor
      · intro h
        by_cases hxy : x = y
        · rw [if_pos hxy] at h
          have hst : lev s t = 0 := by omega
          rw [hxy, (ihs t).mp hst]
        · rw [if_neg hxy] at h
          omega
      · intro h
        injection h with h1 h2
        subst h1; subst h2
        have hst : lev s s = 0 := (ihs s).mpr rfl
        simp [hst]

theorem lev_self (s : List Char) : lev s s = 0 := (lev_eq_zero_iff s s).mpr rfl

theorem lev_singleton_left (a : Char) :
    ∀ t : List Char, lev [a] t = if a ∈ t then t.length - 1 else max t.length 1 := by
  intro t
  induction t with
  | nil => simp [lev_cons_nil]
  | cons y t iht =>
    rw [lev_cons_cons, lev_nil_left, lev_nil_left, iht]
    by_cases hay : a = y
    · have hm : a ∈ y :: t := by simp [hay]
      rw [if_pos hay, if_pos hm]
      by_cases hat : a ∈ t
      · have ht : 0 < t.length := List.length_pos.mpr (List.ne_nil_of_mem hat)
        rw [if_pos hat]
        simp only [List.length_cons]
        omega
      · rw [if_neg hat]
        simp only [List.length_cons]
        omega
    · rw [if_neg hay]
      by_cases hat : a ∈ t
      · have hm : a ∈ y :: t := List.mem_cons_of_mem y hat
        have ht : 0 < t.length := List.length_pos.mpr (List.ne_nil_of_mem hat)
        rw [if_pos hat, if_pos hm]
        simp only [List.length_cons]
        omega
      · have hm : ¬ a ∈ y :: t := by
          simp [List.mem_cons, hay, hat]
        rw [if_neg hat, if_neg hm]
        simp only [List.length_cons]
        omega

theorem lev_singleton_right (b : Char) (t : List Char) :
    lev t [b] = if b ∈ t then t.length - 1 else max t.length 1 := by
  rw [lev_comm t [b], lev_singleton_left]

set_option maxHeartbeats 800000 in
theorem min_shuffle (A B C D E F G H I p q : ℕ) :
    min (min (A + 1) (min (B + 1) (C + p)) + 1)
      (min (min (D + 1) (min (E + 1) (F + p)) + 1)
        (min (G + 1) (min (H + 1) (I + p)) + q)) =
    min (min (A + 1) (min (D + 1) (G + q)) + 1)
      (min (min (B + 1) (min (E + 1) (H + q)) + 1)
        (min (C + 1) (min (F + 1) (I + q)) + p)) := by
  apply Nat.le_antisymm
  · set L := min (min (A + 1) (min (B + 1) (C + p)) + 1)
      (min (min (D + 1) (min (E + 1) (F + p)) + 1)
        (min (G + 1) (min (H + 1) (I + p)) + q)) with hL
    have e1 : L ≤ A + 2 := by rw [hL]; omega
    have e2 : L ≤ B + 2 := by rw [hL]; omega
    have e3 : L ≤ C + 1 + p := by rw [hL]; omega
    have e4 : L ≤ D + 2 := by rw [hL]; omega
    have e5 : L ≤ E + 2 := by rw [hL]; omega
    have e6 : L ≤ F + 1 + p := by rw [hL]; omega
    have e7 : L ≤ G + 1 + q := by rw [hL]; omega
    have e8 : L ≤ H + 1 + q := by rw [hL]; omega
    have e9 : L ≤ I + p + q := by rw [hL]; omega
    omega
  · set R := min (min (A + 1) (min (D + 1) (G + q)) + 1)
      (min (min (B + 1) (min (E + 1) (H + q)) + 1)
        (min (C + 1) (min (F + 1) (I + q)) + p)) with hR
    have f1 : R ≤ A + 2 := by rw [hR]; omega
    have f2 : R ≤ B + 2 := by rw [hR]; omega
    have f3 : R ≤ C + 1 + p := by rw [hR]; omega
    have f4 : R ≤ D + 2 := by rw [hR]; omega
    have f5 : R ≤ E + 2 := by rw [hR]; omega
    have f6 : R ≤ F + 1 + p := by rw [hR]; omega
    have f7 : R ≤ G + 1 + q := by rw [hR]; omega
    have f8 : R ≤ H + 1 + q := by rw [hR]; omega
    have f9 : R ≤ I + p + q := by rw [hR]; omega
    omega

theorem lev_append_aux :
    ∀ n, ∀ s t : List Char, s.length + t.length ≤ n → ∀ a b : Char,
      lev (s ++ [a]) (t ++ [b]) =
        min (lev s (t ++ [b]) + 1)
          (min (lev (s ++ [a]) t + 1) (lev s t + (if a = b then 0 else 1))) := by
  intro n
  induction n with
  | zero =>
    intro s t hlen a b
    have hs : s = [] := by
      cases s with
      | nil => rfl
      | cons c cs => simp only [List.length_cons] at hlen; omega
    have ht : t = [] := by
      cases t with
      | nil => rfl
      | cons c cs => simp only [List.length_cons] at hlen; omega
    subst hs; subst ht
    simp only [List.nil_append]
    exact lev_cons_cons a b [] []
  | succ n ih =>
    intro s t hlen a b
    cases s with
    | nil =>
      simp only [List.nil_append]
      rw [lev_singleton_left, lev_singleton_left, lev_nil_left, lev_nil_left]
      have hlen2 : (t ++ [b]).length = t.length + 1 := by simp
      by_cases hab : a = b
      · have hm : a ∈ t ++ [b] := by
          exact List.mem_append.mpr (Or.inr (List.mem_singleton.mpr hab))
        rw [if_pos hm, hlen2, if_pos hab]
        by_cases hat : a ∈ t
        · have ht : 0 < t.length := List.length_pos.mpr (List.ne_nil_of_mem hat)
          rw [if_pos hat]; omega
        · rw [if_neg hat]; omega
      · rw [if_neg hab]
        by_cases hat : a ∈ t
        · have hm : a ∈ t ++ [b] := List.mem_append.mpr (Or.inl hat)
          have ht : 0 < t.length := List.length_pos.mpr (List.ne_nil_of_mem hat)
          rw [if_pos hm, if_pos hat, hlen2]; omega
        · have hm : ¬ a ∈ t ++ [b] := by
            intro hmem
            rcases List.mem_append.mp hmem with h | h
            · exact hat h
            · exact hab (List.mem_singleton.mp h)
          rw [if_neg hm, if_neg hat, hlen2]; omega
    | cons x s' =>
      cases t with
      | nil =>
        simp only [List.nil_append]
        rw [lev_singleton_right, lev_singleton_right, lev_nil_right, lev_nil_right]
        have hlen2 : ((x :: s') ++ [a]).length = s'.length + 2 := by simp
        have hlen3 : (x :: s').length = s'.length + 1 := by simp
        by_cases hab : a = b
        · by_cases hbt : b ∈ x :: s'
          · have hm : b ∈ (x :: s') ++ [a] := List.mem_append.mpr (Or.inl hbt)
            rw [if_pos hm, if_pos hbt, hlen2, hlen3, if_pos hab]; omega
          · have hm : b ∈ (x :: s') ++ [a] :=
              List.mem_append.mpr (Or.inr (List.mem_singleton.mpr hab.symm))
            rw [if_pos hm, if_neg hbt, hlen2, hlen3, if_pos hab]; omega
        · by_cases hbt : b ∈ x :: s'
          · have hm : b ∈ (x :: s') ++ [a] := List.mem_append.mpr (Or.inl hbt)
            rw [if_pos hm, if_pos hbt, hlen2, hlen3, if_neg hab]; omega
          · have hm : ¬ b ∈ (x :: s') ++ [a] := by
              intro hmem
              rcases List.mem_append.mp hmem with h | h
              · exact hbt h
              · exact hab (List.mem_singleton.mp h).symm
            rw [if_neg hm, if_neg hbt, hlen2, hlen3, if_neg hab]; omega
      | cons y t' =>
        have ih1 := ih s' (y :: t')
          (by simp only [List.length_cons] at hlen ⊢; omega) a b
        have ih2 := ih (x :: s') t'
          (by simp only [List.length_cons] at hlen ⊢; omega) a b
        have ih3 := ih s' t'
          (by simp only [List.length_cons] at hlen; omega) a b
        simp only [List.cons_append] at ih1 ih2 ih3 ⊢
        rw [lev_cons_cons x y (s' ++ [a]) (t' ++ [b]),
            lev_cons_cons x y s' (t' ++ [b]),
            lev_cons_cons x y (s' ++ [a]) t',
            lev_cons_cons x y s' t',
            ih1, ih2, ih3]
        exact min_shuffle _ _ _ _ _ _ _ _ _ _ _

theorem lev_append (s t : List Char) (a b : Char) :
    lev (s ++ [a]) (t ++ [b]) =
      min (lev s (t ++ [b]) + 1)
        (min (lev (s ++ [a]) t + 1) (lev s t + (if a = b then 0 else 1))) :=
  lev_append_aux (s.length + t.length) s t le_rfl a b

theorem lev_reverse_aux :
    ∀ n, ∀ s t : List Char, s.length + t.length ≤ n →
      lev s.reverse t.reverse = lev s t := by
  intro n
  induction n with
  | zero =>
    intro s t hlen
    have hs : s = [] := by
      cases s with
      | nil => rfl
      | cons c cs => simp only [List.length_cons] at hlen; omega
    have ht : t = [] := by
      cases t with
      | nil => rfl
      | cons c cs => simp only [List.length_cons] at hlen; omega
    subst hs; subst ht; rfl
  | succ n ih =>
    intro s t hlen
    cases s with
    | nil =>
      simp only [List.reverse_nil]
      rw [lev_nil_left, lev_nil_left, List.length_reverse]
    | cons x s' =>
      cases t with
      | nil =>
        simp only [List.reverse_nil]
        rw [lev_nil_right, lev_nil_right, List.length_reverse]
      | cons y t' =>
        rw [List.reverse_cons, List.reverse_cons,
            lev_append s'.reverse t'.reverse x y,
            ← List.reverse_cons y t', ← List.reverse_cons x s',
            ih s' (y :: t') (by simp only [List.length_cons] at hlen ⊢; omega),
            ih (x :: s') t' (by simp only [List.length_cons] at hlen ⊢; omega),
            ih s' t' (by simp only [List.length_cons] at hlen; omega),
            lev_cons_cons x y s' t']

theorem lev_reverse (s t : List Char) : lev s.reverse t.reverse = lev s t :=
  lev_reverse_aux (s.length + t.length) s t le_rfl

theorem levMatrixF_eq (s t : List Char) :
    ∀ f i j, i + j < f → i ≤ s.length → j ≤ t.length →
      levMatrixF s t f i j = lev ((s.take i).reverse) ((t.take j).reverse) := by
  intro f
  induction f with
  | zero => intro i j h hi hj; omega
  | succ f ih =>
    intro i j hf hi hj
    cases i with
    | zero =>
      simp only [levMatrixF, List.take_zero, List.reverse_nil]
      rw [lev_nil_left, List.length_reverse, List.length_take]
      omega
    | succ i =>
      cases j with
      | zero =>
        simp only [levMatrixF, List.take_zero, List.reverse_nil]
        rw [lev_nil_right, List.length_reverse, List.length_take]
        omega
      | succ j =>
        have hi' : i < s.length := by omega
        have hj' : j < t.length := by omega
        simp only [levMatrixF]
        rw [ih i (j + 1) (by omega) (by omega) hj,
            ih (i + 1) j (by omega) hi (by omega),
            ih i j (by omega) (by omega) (by omega),
            @List.take_succ _ s i, @List.take_succ _ t j,
            List.getElem?_eq_getElem hi', List.getElem?_eq_getElem hj']
        simp only [Option.toList_some, Option.some.injEq, List.reverse_append,
          List.reverse_cons, List.reverse_nil, List.nil_append, List.singleton_append]
        rw [lev_cons_cons]

theorem levMatrixF_full (s t : List Char) :
    levMatrixF s t (s.length + t.length + 1) s.length t.length = lev s t := by
  rw [levMatrixF_eq s t (s.length + t.length + 1) s.length t.length (by omega) le_rfl le_rfl,
      List.take_length, List.take_length, lev_reverse]

theorem lowerStr_length (s : List Char) : (lowerStr s).length = s.length := by
  simp [lowerStr]

theorem calculateSimilarity_eq (s1 s2 : List Char) (h : ¬(s1 = [] ∧ s2 = [])) :
    calculateSimilarity s1 s2 =
      some (1 - (lev (lowerStr s1) (lowerStr s2) : ℚ) /
        ((max s1.length s2.length : ℕ) : ℚ)) := by
  have hmax : ¬ (max (lowerStr s1).length (lowerStr s2).length = 0) := by
    rw [lowerStr_length, lowerStr_length]
    intro hc
    rcases Nat.max_eq_zero_iff.mp hc with ⟨h1, h2⟩
    exact h ⟨List.length_eq_zero.mp h1, List.length_eq_zero.mp h2⟩
  unfold calculateSimilarity
  simp only []
  rw [if_neg hmax, levMatrixF_full (lowerStr s1) (lowerStr s2),
      lowerStr_length, lowerStr_length]

theorem levD_nil_left :
    ∀ t : List Char, levenshtein Levenshtein.defaultCost [] t = t.length := by
  intro t
  induction t with
  | nil => rw [levenshtein_nil_nil]; rfl
  | cons y t ih =>
    rw [levenshtein_nil_cons, ih, Levenshtein.defaultCost_insert, List.length_cons]
    omega

theorem levD_cons_nil :
    ∀ s : List Char, levenshtein Levenshtein.defaultCost s [] = s.length := by
  intro s
  induction s with
  | nil => rw [levenshtein_nil_nil]; rfl
  | cons x s ih =>
    rw [levenshtein_cons_nil, ih, Levenshtein.defaultCost_delete, List.length_cons]
    omega

theorem lev_eq_levenshtein_aux :
    ∀ n, ∀ s t : List Char, s.length + t.length ≤ n →
      lev s t = levenshtein Levenshtein.defaultCost s t := by
  intro n
  induction n with
  | zero =>
    intro s t hlen
    have hs : s = [] := by
      cases s with
      | nil => rfl
      | cons c cs => simp only [List.length_cons] at hlen; omega
    subst hs
    rw [lev_nil_left, levD_nil_left]
  | succ n ih =>
    intro s t hlen
    cases s with
    | nil => rw [lev_nil_left, levD_nil_left]
    | cons x s' =>
      cases t with
      | nil => rw [lev_nil_right, levD_cons_nil]
      | cons y t' =>
        rw [lev_cons_cons, levenshtein_cons_cons,
            ih s' (y :: t') (by simp only [List.length_cons] at hlen ⊢; omega),
            ih (x :: s') t' (by simp only [List.length_cons] at hlen ⊢; omega),
            ih s' t' (by simp only [List.length_cons] at hlen; omega),
            Levenshtein.defaultCost_delete, Levenshtein.defaultCost_insert,
            Levenshtein.defaultCost_substitute]
        by_cases hxy : x = y
        · simp only [if_pos hxy]; omega
        · simp only [if_neg hxy]; omega

theorem lev_eq_levenshtein (s t : List Char) :
    lev s t = levenshtein Levenshtein.defaultCost s t :=
  lev_eq_levenshtein_aux (s.length + t.length) s t le_rfl

/-- Evaluation helper: once the matrix value at full indices is known (a pure
`ℕ` computation the kernel can check by `decide`), the similarity value
follows. -/
theorem calculateSimilarity_eval (s1 s2 : List Char) (d : ℕ)
    (h : ¬(s1 = [] ∧ s2 = []))
    (hd : levMatrixF (lowerStr s1) (lowerStr s2)
        ((lowerStr s1).length + (lowerStr s2).length + 1)
        (lowerStr s1).length (lowerStr s2).length = d) :
    calculateSimilarity s1 s2 =
      some (1 - (d : ℚ) / ((max s1.length s2.length : ℕ) : ℚ)) := by
  rw [calculateSimilarity_eq s1 s2 h, ← levMatrixF_full, hd]

/-- C1: on the input pair of two empty strings, `calculateSimilarity` computes
`distance = 0` and `maxLen = 0` and returns `1 - 0 / 0`, which in JavaScript
is `NaN` (modelled `none`), not the `1.0` the specification requires.  The
code evaluated at the failing input: -/
theorem calculateSimilarity_empty_empty_nan : calculateSimilarity [] [] = none := rfl

/-- C2: for every pair of strings that are not both empty,
`calculateSimilarity` returns exactly `1 -` (the standard unit-cost
Levenshtein distance of the lower-cased strings, as defined by Mathlib's
`levenshtein` with `Levenshtein.defaultCost`) `/ max(len1, len2)`; and on the
classic example pair "kitten" / "sitting" it returns `1 - 3/7`. -/
theorem calculateSimilarity_matches_levenshtein :
    (∀ s1 s2 : List Char, ¬(s1 = [] ∧ s2 = []) →
      calculateSimilarity s1 s2 =
        some (1 - ((levenshtein Levenshtein.defaultCost (lowerStr s1) (lowerStr s2) : ℕ) : ℚ) /
          ((max s1.length s2.length : ℕ) : ℚ)))
    ∧ calculateSimilarity kittenChars sittingChars = some (1 - 3 / 7) := by
  constructor
  · intro s1 s2 h
    rw [calculateSimilarity_eq s1 s2 h, lev_eq_levenshtein]
  · have hd := calculateSimilarity_eval kittenChars sittingChars 3 (by decide) (by decide)
    rw [hd]
    have hm : (max kittenChars.length sittingChars.length : ℕ) = 7 := by decide
    rw [hm]
    norm_num

/-- Witness for C2 at the concrete example pair. -/
theorem calculateSimilarity_matches_levenshtein_witness :
    ¬(kittenChars = [] ∧ sittingChars = []) ∧
      calculateSimilarity kittenChars sittingChars =
        some (1 - ((levenshtein Levenshtein.defaultCost
            (lowerStr kittenChars) (lowerStr sittingChars) : ℕ) : ℚ) /
          ((max kittenChars.length sittingChars.length : ℕ) : ℚ)) :=
  ⟨by decide, calculateSimilarity_matches_levenshtein.1 kittenChars sittingChars (by decide)⟩

/-- C3 counterexample: at the pair of two empty strings the code returns
`NaN` (modelled `none`) rather than `1.0`, even though the lower-cased
strings are identical, so the claimed equivalence fails for that pair. -/
theorem similarity_one_iff_counterexample :
    ¬(calculateSimilarity [] [] = some 1 ↔ lowerStr [] = lowerStr []) := by
  intro h
  exact Option.noConfusion (h.mpr rfl)

/-- C3 (amended): for every pair of strings that are not both empty, the
similarity is exactly `1.0` iff the lower-cased strings are identical; in
particular `similarity s s = 1.0` for every non-empty `s`. -/
theorem similarity_one_iff_lower_eq :
    (∀ s1 s2 : List Char, ¬(s1 = [] ∧ s2 = []) →
        (calculateSimilarity s1 s2 = some 1 ↔ lowerStr s1 = lowerStr s2))
    ∧ (∀ s : List Char, s ≠ [] → calculateSimilarity s s = some 1) := by
  have key : ∀ s1 s2 : List Char, ¬(s1 = [] ∧ s2 = []) →
      (calculateSimilarity s1 s2 = some 1 ↔ lowerStr s1 = lowerStr s2) := by
    intro s1 s2 h
    rw [calculateSimilarity_eq s1 s2 h]
    have hm : ((max s1.length s2.length : ℕ) : ℚ) ≠ 0 := by
      have hn : max s1.length s2.length ≠ 0 := by
        intro hc
        rcases Nat.max_eq_zero_iff.mp hc with ⟨h1, h2⟩
        exact h ⟨List.length_eq_zero.mp h1, List.length_eq_zero.mp h2⟩
      exact_mod_cast hn
    constructor
    · intro he
      have he2 := Option.some.inj he
      have he3 : (lev (lowerStr s1) (lowerStr s2) : ℚ) /
          ((max s1.length s2.length : ℕ) : ℚ) = 0 := sub_eq_self.mp he2
      rcases div_eq_zero_iff.mp he3 with hz | hz
      · have hz2 : lev (lowerStr s1) (lowerStr s2) = 0 := by exact_mod_cast hz
        exact (lev_eq_zero_iff _ _).mp hz2
      · exact absurd hz hm
    · intro he
      rw [he, lev_self]
      simp
  refine ⟨key, fun s hs => (key s s (fun hc => hs hc.1)).mpr rfl⟩

/-- Witness for C3 (amended), instantiated at the non-empty string "a". -/
theorem similarity_one_iff_lower_eq_witness :
    (['a'] : List Char) ≠ [] ∧ calculateSimilarity ['a'] ['a'] = some 1 :=
  ⟨by decide, similarity_one_iff_lower_eq.2 ['a'] (by decide)⟩

/-- C4: `calculateSimilarity` is symmetric in its two arguments (including
the degenerate empty-empty pair, where both orders give `NaN`/`none`). -/
theorem calculateSimilarity_comm :
    ∀ s1 s2 : List Char, calculateSimilarity s1 s2 = calculateSimilarity s2 s1 := by
  intro s1 s2
  by_cases h : s1 = [] ∧ s2 = []
  · rcases h with ⟨h1, h2⟩
    subst h1; subst h2; rfl
  · have h' : ¬(s2 = [] ∧ s1 = []) := fun hc => h ⟨hc.2, hc.1⟩
    rw [calculateSimilarity_eq s1 s2 h, calculateSimilarity_eq s2 s1 h',
        lev_comm (lowerStr s1) (lowerStr s2), Nat.max_comm s1.length s2.length]

theorem containsKeyword_nil_hay (kw : List Char) (h : kw ≠ []) :
    containsKeyword [] kw = false := by
  cases kw with
  | nil => exact absurd rfl h
  | cons c cs => rfl

/-- C5 counterexample: in the Facebook API search step a page whose name is
far from the keyword but whose about text contains the keyword is NOT
included (the code tests name similarity only), although the claimed rule
includes it via the description branch.  Concrete input: keyword "acme",
page name "zzzzzz" (similarity 0), about "go acme". -/
theorem fb_api_description_counterexample :
    fbPageIncludes ['a', 'c', 'm', 'e'] (7 / 10)
        ⟨['z', 'z', 'z', 'z', 'z', 'z'], some ['g', 'o', ' ', 'a', 'c', 'm', 'e'],
          ['f', 'b', '/', 'z']⟩ = false
    ∧ specInclusionRule ['a', 'c', 'm', 'e'] (7 / 10) ['z', 'z', 'z', 'z', 'z', 'z']
        none (some ['g', 'o', ' ', 'a', 'c', 'm', 'e']) = true := by
  have h1 := calculateSimilarity_eval ['z', 'z', 'z', 'z', 'z', 'z'] ['a', 'c', 'm', 'e']
    6 (by decide) (by decide)
  have h2 : (max (List.length ['z', 'z', 'z', 'z', 'z', 'z'])
      (List.length ['a', 'c', 'm', 'e']) : ℕ) = 6 := by decide
  rw [h2] at h1
  have h3 : simGE (calculateSimilarity ['z', 'z', 'z', 'z', 'z', 'z'] ['a', 'c', 'm', 'e'])
      (7 / 10) = false := by
    rw [h1]
    simp only [simGE, decide_eq_false_iff_not]
    norm_num
  constructor
  · show simGE (calculateSimilarity ['z', 'z', 'z', 'z', 'z', 'z'] ['a', 'c', 'm', 'e'])
      (7 / 10) = false
    exact h3
  · have h4 : containsKeyword ['g', 'o', ' ', 'a', 'c', 'm', 'e'] ['a', 'c', 'm', 'e'] = true := by
      decide
    simp [specInclusionRule, descContains, h4]

/-- C5 (amended): the Twitter and YouTube API steps include a candidate iff
the spec's rule holds (similarity of name — and username for Twitter — at or
above the threshold, inclusively, or description containing the keyword),
for any non-empty keyword; the Facebook API step instead tests name
similarity only, for both its page and its user loop.  The threshold
comparison is inclusive everywhere: a candidate whose similarity equals the
threshold exactly is included. -/
theorem api_step_inclusion_rules :
    (∀ (kw : List Char) (th : ℚ) (u : TwitterUser), kw ≠ [] →
        twitterAPIIncludes kw th u =
          specInclusionRule kw th u.name (some u.username) u.description)
    ∧ (∀ (kw : List Char) (th : ℚ) (sn : YTSnippet), kw ≠ [] →
        ytAPIIncludes kw th sn = specInclusionRule kw th sn.title none sn.description)
    ∧ (∀ (kw : List Char) (th : ℚ) (p : FBPage),
        fbPageIncludes kw th p = simGE (calculateSimilarity p.name kw) th)
    ∧ (∀ (kw : List Char) (th : ℚ) (u : FBUser),
        fbUserIncludes kw th u = simGE (calculateSimilarity u.name kw) th)
    ∧ (∀ (kw : List Char) (th : ℚ) (u : TwitterUser),
        calculateSimilarity u.name kw = some th → twitterAPIIncludes kw th u = true)
    ∧ (∀ (kw : List Char) (th : ℚ) (sn : YTSnippet),
        calculateSimilarity sn.title kw = some th → ytAPIIncludes kw th sn = true)
    ∧ (∀ (kw : List Char) (th : ℚ) (p : FBPage),
        calculateSimilarity p.name kw = some th → fbPageIncludes kw th p = true) := by
  refine ⟨?_, ?_, ?_, ?_, ?_, ?_, ?_⟩
  · intro kw th u hkw
    rcases u with ⟨n, un, d⟩
    cases d with
    | none => rfl
    | some l =>
      cases l with
      | nil =>
        simp [twitterAPIIncludes, specInclusionRule, descTruthy, descContains,
          containsKeyword_nil_hay kw hkw]
      | cons c cs =>
        simp [twitterAPIIncludes, specInclusionRule, descTruthy, descContains]
  · intro kw th sn hkw
    rcases sn with ⟨ti, d, cid⟩
    cases d with
    | none => simp [ytAPIIncludes, specInclusionRule, descTruthy, descContains]
    | some l =>
      cases l with
      | nil =>
        simp [ytAPIIncludes, specInclusionRule, descTruthy, descContains,
          containsKeyword_nil_hay kw hkw]
      | cons c cs =>
        simp [ytAPIIncludes, specInclusionRule, descTruthy, descContains]
  · intro kw th p; rfl
  · intro kw th u; rfl
  · intro kw th u h
    simp [twitterAPIIncludes, h, simGE]
  · intro kw th sn h
    simp [ytAPIIncludes, h, simGE]
  · intro kw th p h
    simp [fbPageIncludes, h, simGE]

/-- Witness for C5 (amended), discharging the non-empty-keyword hypothesis
at a concrete input. -/
theorem api_step_inclusion_rules_witness :
    (['a'] : List Char) ≠ [] ∧
      twitterAPIIncludes ['a'] (7 / 10) ⟨['a'], ['b'], none⟩ =
        specInclusionRule ['a'] (7 / 10) ['a'] (some ['b']) none :=
  ⟨by decide, api_step_inclusion_rules.1 ['a'] (7 / 10) ⟨['a'], ['b'], none⟩ (by decide)⟩

/-- C6 counterexample: the YouTube scraping fallback ignores the request's
threshold.  With keyword "kitten", extracted name "sitten" (similarity 5/6)
and empty description, the code includes the candidate (5/6 is at least the
hard-coded 0.7) although the claimed rule with the caller's threshold 0.9
excludes it. -/
theorem scraper_threshold_counterexample :
    scrapeYouTubeIncludes kittenChars ['s', 'i', 't', 't', 'e', 'n'] [] = true
    ∧ specInclusionRule kittenChars (9 / 10) ['s', 'i', 't', 't', 'e', 'n'] none
        (some []) = false := by
  have h1 := calculateSimilarity_eval ['s', 'i', 't', 't', 'e', 'n'] kittenChars 1
    (by decide) (by decide)
  have h2 : (max (List.length ['s', 'i', 't', 't', 'e', 'n'])
      (List.length kittenChars) : ℕ) = 6 := by decide
  rw [h2] at h1
  constructor
  · show simGE (calculateSimilarity ['s', 'i', 't', 't', 'e', 'n'] kittenChars) (7 / 10) ||
      containsKeyword [] kittenChars = true
    have h3 : simGE (calculateSimilarity ['s', 'i', 't', 't', 'e', 'n'] kittenChars)
        (7 / 10) = true := by
      rw [h1]
      simp only [simGE, decide_eq_true_eq]
      norm_num
    simp [h3]
  · have h4 : containsKeyword [] kittenChars = false :=
      containsKeyword_nil_hay _ (by decide)
    have h5 : simGE (calculateSimilarity ['s', 'i', 't', 't', 'e', 'n'] kittenChars)
        (9 / 10) = false := by
      rw [h1]
      simp only [simGE, decide_eq_false_iff_not]
      norm_num
    simp [specInclusionRule, descContains, h4, h5]

/-- C6 (amended): the two Twitter scraping fallbacks apply the spec's
inclusion rule with the caller-supplied threshold; the YouTube scraping
fallback applies the rule with a fixed threshold of 0.7 regardless of the
request; the Facebook scraping fallback uses a fixed 0.7 threshold on name
similarity only, with no description branch. -/
theorem scraper_inclusion_rules :
    (∀ (kw : List Char) (th : ℚ) (n un d : List Char), kw ≠ [] →
        scrapeTwitterIncludes kw th n un d = specInclusionRule kw th n (some un) (some d))
    ∧ (∀ (kw : List Char) (th : ℚ) (n un d : List Char),
        scrapeDirectTwitterIncludes kw th n un d =
          specInclusionRule kw th n (some un) (some d))
    ∧ (∀ (kw n d : List Char),
        scrapeYouTubeIncludes kw n d = specInclusionRule kw (7 / 10) n none (some d))
    ∧ (∀ (kw n : List Char),
        scrapeFacebookIncludes kw n = simGE (calculateSimilarity n kw) (7 / 10)) := by
  refine ⟨?_, ?_, ?_, ?_⟩
  · intro kw th n un d hkw
    cases d with
    | nil =>
      simp [scrapeTwitterIncludes, specInclusionRule, descContains,
        containsKeyword_nil_hay kw hkw]
    | cons c cs =>
      simp [scrapeTwitterIncludes, specInclusionRule, descContains]
  · intro kw th n un d
    simp [scrapeDirectTwitterIncludes, specInclusionRule, descContains]
  · intro kw n d
    simp [scrapeYouTubeIncludes, specInclusionRule, descContains]
  · intro kw n; rfl

/-- Witness for C6 (amended), discharging the non-empty-keyword hypothesis
at a concrete input. -/
theorem scraper_inclusion_rules_witness :
    (['a'] : List Char) ≠ [] ∧
      scrapeTwitterIncludes ['a'] (7 / 10) ['n'] ['u'] ['d'] =
        specInclusionRule ['a'] (7 / 10) ['n'] (some ['u']) (some ['d']) :=
  ⟨by decide, scraper_inclusion_rules.1 ['a'] (7 / 10) ['n'] ['u'] ['d'] (by decide)⟩

/-- C7: the orchestrators fall back to scraping exactly when the API path
yields zero candidates.  For the unified Twitter search (with the API
configured): a non-empty API list is returned unchanged, an empty one hands
over to Nitter and then to the direct scrape; the Facebook and YouTube
handlers scrape iff the API list is empty; and when the Twitter API call
fails at the transport level (modelled `ok = false`, which the catch turns
into the empty list) the fallback chain runs. -/
theorem fallback_iff_api_empty :
    (∀ api nitter direct : List Account,
        searchTwitterAccountsUnified true api nitter direct =
          if api.isEmpty then (if nitter.isEmpty then direct else nitter) else api)
    ∧ (∀ api scrape : List Account,
        fbSearchHandlerResults api scrape = if api.isEmpty then scrape else api)
    ∧ (∀ api scrape : List Account,
        ytSearchHandlerResults api scrape = if api.isEmpty then scrape else api)
    ∧ (∀ (kw : List Char) (th : ℚ) (users : List TwitterUser)
          (nitter direct : List Account),
        searchTwitterAccountsUnified true
            (searchTwitterAccountsViaAPI kw th false users) nitter direct =
          if nitter.isEmpty then direct else nitter) := by
  have huni : ∀ api nitter direct : List Account,
      searchTwitterAccountsUnified true api nitter direct =
        if api.isEmpty then (if nitter.isEmpty then direct else nitter) else api := by
    intro api nitter direct
    cases api with
    | nil =>
      cases nitter with
      | nil => rfl
      | cons v vs => rfl
    | cons a as => rfl
  refine ⟨huni, ?_, ?_, ?_⟩
  · intro api scrape; rfl
  · intro api scrape; rfl
  · intro kw th users nitter direct
    have hapi : searchTwitterAccountsViaAPI kw th false users = [] := rfl
    rw [huni, hapi]
    rfl

/-- C8 counterexample: `searchFacebookAccounts` performs no deduplication,
so an API response repeating the same page (same url) yields a result list
with a duplicated url, contradicting the claimed invariant that a returned
candidate sequence never contains two accounts with the same url. -/
theorem fb_duplicate_url_counterexample :
    ¬ ((searchFacebookAccounts ['a', 'c', 'm', 'e'] (7 / 10) true
          [⟨['a', 'c', 'm', 'e'], some ['x'], ['u', 'r', 'l']⟩,
           ⟨['a', 'c', 'm', 'e'], some ['x'], ['u', 'r', 'l']⟩] false []).map
        Account.url).Nodup := by
  have hsim := calculateSimilarity_eval ['a', 'c', 'm', 'e'] ['a', 'c', 'm', 'e'] 0
    (by decide) (by decide)
  have h2 : (max (List.length ['a', 'c', 'm', 'e'])
      (List.length ['a', 'c', 'm', 'e']) : ℕ) = 4 := by decide
  rw [h2] at hsim
  have hinc : fbPageIncludes ['a', 'c', 'm', 'e'] (7 / 10)
      ⟨['a', 'c', 'm', 'e'], some ['x'], ['u', 'r', 'l']⟩ = true := by
    show simGE (calculateSimilarity ['a', 'c', 'm', 'e'] ['a', 'c', 'm', 'e'])
      (7 / 10) = true
    rw [hsim]
    simp only [simGE, decide_eq_true_eq]
    norm_num
  have hres : searchFacebookAccounts ['a', 'c', 'm', 'e'] (7 / 10) true
      [⟨['a', 'c', 'm', 'e'], some ['x'], ['u', 'r', 'l']⟩,
       ⟨['a', 'c', 'm', 'e'], some ['x'], ['u', 'r', 'l']⟩] false [] =
      [⟨['a', 'c', 'm', 'e'], some ['x'], ['u', 'r', 'l']⟩,
       ⟨['a', 'c', 'm', 'e'], some ['x'], ['u', 'r', 'l']⟩] := by
    unfold searchFacebookAccounts searchFacebookAccountsBody
    simp [List.filter_cons, hinc]
  rw [hres]
  decide

theorem mergeByUrl_aux :
    ∀ (vs acc : List Account),
      (∃ rest, mergeByUrl acc vs = acc ++ rest)
      ∧ (∀ a, a ∈ mergeByUrl acc vs →
          a ∈ acc ∨ (a ∈ vs ∧ ¬ a.url ∈ acc.map Account.url))
      ∧ ((acc.map Account.url).Nodup → ((mergeByUrl acc vs).map Account.url).Nodup) := by
  intro vs
  induction vs with
  | nil =>
    intro acc
    refine ⟨⟨[], by simp [mergeByUrl]⟩, ?_, ?_⟩
    · intro a ha
      exact Or.inl (by simpa [mergeByUrl] using ha)
    · intro h
      simpa [mergeByUrl] using h
  | cons v vs ih =>
    intro acc
    have hstep : mergeByUrl acc (v :: vs) =
        mergeByUrl (if v.url ∈ acc.map Account.url then acc else acc ++ [v]) vs := rfl
    by_cases hmem : v.url ∈ acc.map Account.url
    · rw [hstep, if_pos hmem]
      rcases ih acc with ⟨hpre, hmem2, hnd⟩
      refine ⟨hpre, ?_, hnd⟩
      intro a ha
      rcases hmem2 a ha with h | ⟨h1, h2⟩
      · exact Or.inl h
      · exact Or.inr ⟨List.mem_cons_of_mem v h1, h2⟩
    · rw [hstep, if_neg hmem]
      rcases ih (acc ++ [v]) with ⟨⟨rest, hr⟩, hmem2, hnd⟩
      refine ⟨⟨v :: rest, by rw [hr]; simp⟩, ?_, ?_⟩
      · intro a ha
        rcases hmem2 a ha with h | ⟨h1, h2⟩
        · rcases List.mem_append.mp h with h' | h'
          · exact Or.inl h'
          · have hav : a = v := List.mem_singleton.mp h'
            subst hav
            exact Or.inr ⟨List.mem_cons_self a vs, hmem⟩
        · refine Or.inr ⟨List.mem_cons_of_mem v h1, fun hc => h2 ?_⟩
          rw [List.map_append]
          exact List.mem_append.mpr (Or.inl hc)
      · intro hnodup
        apply hnd
        rw [List.map_append]
        simp only [List.map_cons, List.map_nil]
        rw [List.nodup_append]
        refine ⟨hnodup, List.nodup_singleton _, ?_⟩
        intro x hx hx2
        exact hmem ((List.mem_singleton.mp hx2) ▸ hx)

/-- C8 (amended): result lists are not globally deduplicated — a single
source repeating a url yields duplicates (see the counterexample) — but the
extended-search merge step does deduplicate across its two sources: the
channel results are kept unchanged as a prefix (so for a url present in
both sources the first-seen entry, with its description, is the one that
survives), every added entry comes from the video-channel list and has a url
not present among the channel results, and when the channel results have
pairwise-distinct urls so does the merged list. -/
theorem merged_results_dedup_by_url :
    ∀ cs vs : List Account,
      (∃ rest, mergeByUrl cs vs = cs ++ rest)
      ∧ (∀ a, a ∈ mergeByUrl cs vs →
          a ∈ cs ∨ (a ∈ vs ∧ ¬ a.url ∈ cs.map Account.url))
      ∧ ((cs.map Account.url).Nodup → ((mergeByUrl cs vs).map Account.url).Nodup) :=
  fun cs vs => mergeByUrl_aux vs cs

/-- Witness for C8 (amended): two sources with the same url and different
descriptions; the merged list keeps exactly the first-seen entry and its
url multiset is duplicate-free. -/
theorem merged_results_dedup_by_url_witness :
    (([⟨['n'], some ['d', '1'], ['u']⟩] : List Account).map Account.url).Nodup ∧
      ((mergeByUrl [⟨['n'], some ['d', '1'], ['u']⟩]
          [⟨['n'], some ['d', '2'], ['u']⟩]).map Account.url).Nodup ∧
      mergeByUrl [⟨['n'], some ['d', '1'], ['u']⟩] [⟨['n'], some ['d', '2'], ['u']⟩] =
        [⟨['n'], some ['d', '1'], ['u']⟩] :=
  ⟨by decide,
   (merged_results_dedup_by_url [⟨['n'], some ['d', '1'], ['u']⟩]
      [⟨['n'], some ['d', '2'], ['u']⟩]).2.2 (by decide),
   by decide⟩

/-- C9: the per-platform search functions never surface an exception: a
transport failure or non-ok status (`ok = false`) makes the body throw and
the catch-all returns the empty list; any thrown error yields the empty
list; and a successful body is passed through unchanged, so the caller
always receives a plain (possibly empty) candidate list. -/
theorem search_functions_never_throw :
    (∀ (kw : List Char) (th : ℚ) (users : List TwitterUser),
        searchTwitterAccountsViaAPI kw th false users = [])
    ∧ (∀ (kw : List Char) (th : ℚ) (ok : Bool) (users : List TwitterUser)
          (e : List Char),
        searchTwitterAccountsViaAPIBody kw th ok users = Except.error e →
          searchTwitterAccountsViaAPI kw th ok users = [])
    ∧ (∀ (kw : List Char) (th : ℚ) (ok : Bool) (users : List TwitterUser)
          (l : List Account),
        searchTwitterAccountsViaAPIBody kw th ok users = Except.ok l →
          searchTwitterAccountsViaAPI kw th ok users = l)
    ∧ (∀ (kw : List Char) (th : ℚ) (pages : List FBPage) (usersOk : Bool)
          (users : List FBUser),
        searchFacebookAccounts kw th false pages usersOk users = [])
    ∧ (∀ (kw : List Char) (th : ℚ) (pagesOk : Bool) (pages : List FBPage)
          (usersOk : Bool) (users : List FBUser) (e : List Char),
        searchFacebookAccountsBody kw th pagesOk pages usersOk users = Except.error e →
          searchFacebookAccounts kw th pagesOk pages usersOk users = [])
    ∧ (∀ (kw : List Char) (th : ℚ) (pagesOk : Bool) (pages : List FBPage)
          (usersOk : Bool) (users : List FBUser) (l : List Account),
        searchFacebookAccountsBody kw th pagesOk pages usersOk users = Except.ok l →
          searchFacebookAccounts kw th pagesOk pages usersOk users = l)
    ∧ (∀ (kw : List Char) (th : ℚ) (items : List YTItem),
        searchYouTubeChannels kw th false items = [])
    ∧ (∀ (kw : List Char) (th : ℚ) (ok : Bool) (items : List YTItem) (e : List Char),
        searchYouTubeChannelsBody kw th ok items = Except.error e →
          searchYouTubeChannels kw th ok items = [])
    ∧ (∀ (kw : List Char) (th : ℚ) (ok : Bool) (items : List YTItem)
          (l : List Account),
        searchYouTubeChannelsBody kw th ok items = Except.ok l →
          searchYouTubeChannels kw th ok items = l) := by
  refine ⟨?_, ?_, ?_, ?_, ?_, ?_, ?_, ?_, ?_⟩
  · intro kw th users; rfl
  · intro kw th ok users e h
    unfold searchTwitterAccountsViaAPI
    rw [h]
  · intro kw th ok users l h
    unfold searchTwitterAccountsViaAPI
    rw [h]
  · intro kw th pages usersOk users; rfl
  · intro kw th pagesOk pages usersOk users e h
    unfold searchFacebookAccounts
    rw [h]
  · intro kw th pagesOk pages usersOk users l h
    unfold searchFacebookAccounts
    rw [h]
  · intro kw th items; rfl
  · intro kw th ok items e h
    unfold searchYouTubeChannels
    rw [h]
  · intro kw th ok items l h
    unfold searchYouTubeChannels
    rw [h]

/-- Witness for C9: each platform's function evaluated at a failing
transport (non-ok response), with the error hypothesis discharged by
computation. -/
theorem search_functions_never_throw_witness :
    searchTwitterAccountsViaAPI ['a'] 1 false [] = [] ∧
      searchFacebookAccounts ['a'] 1 false [] false [] = [] ∧
      searchYouTubeChannels ['a'] 1 false [] = [] :=
  ⟨search_functions_never_throw.2.1 ['a'] 1 false [] "API request failed".data rfl,
   search_functions_never_throw.2.2.2.2.1 ['a'] 1 false [] false []
     "API request failed".data rfl,
   search_functions_never_throw.2.2.2.2.2.2.2.1 ['a'] 1 false []
     "API request failed".data rfl⟩

/-- C10: each `/api/search` handler substitutes the platform default for any
falsy supplied option, not only an absent one: supplying `0` for
`fuzzyThreshold`, `limit` or `throttleMs` produces exactly the options of a
request without that field; in particular a supplied threshold of `0`
becomes `0.7`, and the effective threshold of any request is never `0`. -/
theorem falsy_options_get_defaults :
    (∀ (kw : List Char) (l t : Option ℚ),
        twitterSearchOptions ⟨kw, l, t, some 0⟩ = twitterSearchOptions ⟨kw, l, t, none⟩)
    ∧ (∀ (kw : List Char) (t f : Option ℚ),
        twitterSearchOptions ⟨kw, some 0, t, f⟩ = twitterSearchOptions ⟨kw, none, t, f⟩)
    ∧ (∀ (kw : List Char) (l f : Option ℚ),
        twitterSearchOptions ⟨kw, l, some 0, f⟩ = twitterSearchOptions ⟨kw, l, none, f⟩)
    ∧ (∀ (kw : List Char) (l t : Option ℚ),
        (twitterSearchOptions ⟨kw, l, t, some 0⟩).fuzzyThreshold = 7 / 10)
    ∧ (∀ b : SearchBody, (twitterSearchOptions b).fuzzyThreshold ≠ 0)
    ∧ (∀ (kw : List Char) (l t : Option ℚ),
        youtubeSearchOptions ⟨kw, l, t, some 0⟩ = youtubeSearchOptions ⟨kw, l, t, none⟩)
    ∧ (∀ (kw : List Char) (t f : Option ℚ),
        youtubeSearchOptions ⟨kw, some 0, t, f⟩ = youtubeSearchOptions ⟨kw, none, t, f⟩)
    ∧ (∀ (kw : List Char) (l f : Option ℚ),
        youtubeSearchOptions ⟨kw, l, some 0, f⟩ = youtubeSearchOptions ⟨kw, l, none, f⟩)
    ∧ (∀ (kw : List Char) (l t : Option ℚ),
        (youtubeSearchOptions ⟨kw, l, t, some 0⟩).fuzzyThreshold = 7 / 10)
    ∧ (∀ b : SearchBody, (youtubeSearchOptions b).fuzzyThreshold ≠ 0)
    ∧ (∀ (kw : List Char) (l t : Option ℚ),
        facebookSearchOptions ⟨kw, l, t, some 0⟩ = facebookSearchOptions ⟨kw, l, t, none⟩)
    ∧ (∀ (kw : List Char) (t f : Option ℚ),
        facebookSearchOptions ⟨kw, some 0, t, f⟩ = facebookSearchOptions ⟨kw, none, t, f⟩)
    ∧ (∀ (kw : List Char) (l f : Option ℚ),
        facebookSearchOptions ⟨kw, l, some 0, f⟩ = facebookSearchOptions ⟨kw, l, none, f⟩)
    ∧ (∀ (kw : List Char) (l t : Option ℚ),
        (facebookSearchOptions ⟨kw, l, t, some 0⟩).fuzzyThreshold = 7 / 10)
    ∧ (∀ b : SearchBody, (facebookSearchOptions b).fuzzyThreshold ≠ 0) := by
  have hnz : ∀ x : Option ℚ, jsOrNum x (7 / 10) ≠ 0 := by
    intro x
    cases x with
    | none =>
      simp only [jsOrNum]
      norm_num
    | some v =>
      by_cases hv : v = 0
      · simp only [jsOrNum, if_pos hv]
        norm_num
      · simp only [jsOrNum, if_neg hv]
        exact hv
  refine ⟨?_, ?_, ?_, ?_, fun b => hnz b.fuzzyThreshold,
          ?_, ?_, ?_, ?_, fun b => hnz b.fuzzyThreshold,
          ?_, ?_, ?_, ?_, fun b => hnz b.fuzzyThreshold⟩ <;>
    intro kw a1 a2 <;> simp [twitterSearchOptions, youtubeSearchOptions,
      facebookSearchOptions, jsOrNum]

/-- Witness for C10 at a concrete request body supplying a zero threshold. -/
theorem falsy_options_get_defaults_witness :
    (twitterSearchOptions ⟨['a'], none, none, some 0⟩).fuzzyThreshold = 7 / 10 ∧
      (facebookSearchOptions ⟨['a'], none, none, some 0⟩).fuzzyThreshold ≠ 0 :=
  ⟨falsy_options_get_defaults.2.2.2.1 ['a'] none none,
   falsy_options_get_defaults.2.2.2.2.2.2.2.2.2.2.2.2.2.2 ⟨['a'], none, none, some 0⟩⟩

end Scrape
